import Mathlib

/-!
Verification of the scene-calibration script `bandwidth.py`.

The script drives a camera with procedurally generated test scenes and tunes
three scalar parameters (motion-object size, background fineness, auxiliary
rectangle lengths) until device-reported scores meet operator targets.  The
device, the rasterizer and the video tools are external black boxes; they are
modelled as oracle functions (`score : ℚ → ℤ`, images as functions on points,
command strings as character lists).  All numeric state is embedded exactly:
Python float arithmetic on the halving midpoints is dyadic-rational and is
modelled in `ℚ`; `int(...)` truncation and `int(math.sqrt(...))` are modelled
by explicit truncation/floor-square-root functions.
-/

namespace Bandwidth

/-- Horizontal resolution of the display (`self.hor_res` in `Datapath.__init__`). -/
def hor_res : ℕ := 3840

/-- Vertical resolution of the display (`self.ver_res`). -/
def ver_res : ℕ := 2160

/-- Width of the rotating motion rectangle, `self.mo_size_y = int(self.hor_res*0.1)`. -/
def mo_size_y : ℕ := 384

/-- Python `int(q)` for a rational `q`: truncation toward zero. -/
def pyInt (q : ℚ) : ℤ := q.num.tdiv q.den

/-- Python `int(math.sqrt(q))` for `q ≥ 0`: the floor of the real square root,
computed as `Nat.sqrt ⌊q⌋` (for nonnegative `x`, `⌊√x⌋ = Nat.sqrt ⌊x⌋`). -/
def isqrt (q : ℚ) : ℕ := Nat.sqrt (⌊q⌋.toNat)

/-- Python `\s` (ASCII range): the whitespace class matched by `[\s]` and `\s`
in the score patterns. -/
def pyIsSpace (c : Char) : Bool :=
  c = ' ' || c = '\t' || c = '\n' || c = '\r' || c = '\x0b' || c = '\x0c'

/-- Numeric value of a digit run captured by `(\d+)`. -/
def digitsToNat (ds : List Char) : ℕ :=
  ds.foldl (fun n c => 10 * n + (c.toNat - 48)) 0

/-- Match a literal fragment of a pattern at the head of the text, returning
the rest of the text on success. -/
def dropLit : List Char → List Char → Option (List Char)
  | [], cs => some cs
  | _ :: _, [] => none
  | l :: ls, c :: cs => if c = l then dropLit ls cs else none

/-- Match `\s(\d+)` at the head of the text: one whitespace character, then a
maximal nonempty digit run; returns the captured number and the rest. -/
def matchNumAfter : List Char → Option (ℕ × List Char)
  | [] => none
  | c :: rest =>
    if pyIsSpace c then
      let ds := rest.takeWhile Char.isDigit
      if ds.isEmpty then none
      else some (digitsToNat ds, rest.drop ds.length)
    else none

/-- Match `lit[\s](\d+)%` at the head of the text (the shape of
`r'HighDetail:[\s](\d+)%'` and `r'LowDetail:[\s](\d+)%'` in
`Datapath.check_detail`). -/
def matchDetailAt (lit : List Char) (cs : List Char) : Option ℕ :=
  match dropLit lit cs with
  | none => none
  | some rest =>
    match matchNumAfter rest with
    | none => none
    | some (n, rest2) =>
      match rest2 with
      | '%' :: _ => some n
      | _ => none

/-- Match `r'30s:\s(\d+)\spercent'` at the head of the text
(`Datapath.check_motion`). -/
def matchMotionAt (cs : List Char) : Option ℕ :=
  match dropLit ("30s:".data) cs with
  | none => none
  | some rest =>
    match matchNumAfter rest with
    | none => none
    | some (n, rest2) =>
      match rest2 with
      | c :: rest3 =>
        if pyIsSpace c then
          if (dropLit ("percent".data) rest3).isSome then some n else none
        else none
      | [] => none

/-- `re.search`: try the matcher at every start position, left to right. -/
def reSearch (m : List Char → Option ℕ) : List Char → Option ℕ
  | [] => m []
  | c :: rest =>
    match m (c :: rest) with
    | some n => some n
    | none => reSearch m rest

/-- `re.search(r'HighDetail:[\s](\d+)%', output_str)`, as the captured number. -/
def searchHighDetail (s : String) : Option ℕ :=
  reSearch (matchDetailAt ("HighDetail:".data)) s.data

/-- `re.search(r'LowDetail:[\s](\d+)%', output_str)`, as the captured number. -/
def searchLowDetail (s : String) : Option ℕ :=
  reSearch (matchDetailAt ("LowDetail:".data)) s.data

/-- `re.search(r'30s:\s(\d+)\spercent', daemon_output)`, as the captured
number. -/
def searchMotion (s : String) : Option ℕ :=
  reSearch matchMotionAt s.data

/-- The detail scores stored on the `Datapath` object (`self.high_detail`,
`self.low_detail`); `none` models a not-yet-assigned attribute. -/
structure DetailScores where
  high_detail : Option ℤ
  low_detail : Option ℤ
deriving DecidableEq

/-- `Datapath.check_detail` on a given `detail.exe` output text: each stored
score is reassigned only when its pattern is found (`if m_high:` /
`if m_low:`); when a pattern is absent the previously stored value is left in
place and no exception is raised. -/
def check_detail (output_str : String) (st : DetailScores) : DetailScores :=
  { high_detail :=
      match searchHighDetail output_str with
      | some n => some (n : ℤ)
      | none => st.high_detail
    low_detail :=
      match searchLowDetail output_str with
      | some n => some (n : ℤ)
      | none => st.low_detail }

/-- One `'ms'` parse in `Datapath.check_motion`:
`int(re.search(r'30s:\s(\d+)\spercent', daemon_output).group(1))`.  `none`
models the exception raised when the pattern is absent (`re.search` returns
`None`, so `.group(1)` fails and the scenario halts). -/
def parse_motion (daemon_output : String) : Option ℤ :=
  (searchMotion daemon_output).map (fun n => (n : ℤ))

/-- `self.sample_range` in `Datapath.check_motion`. -/
def sample_range : ℕ := 10

/-- `self.motion_list[-self.sample_range:]`: the most recent 10 entries. -/
def lastWindow (xs : List ℤ) : List ℤ := xs.drop (xs.length - sample_range)

/-- `np.var(data_set) == 0` for integer scores: all entries of the window are
equal (the variance of integers is zero exactly when they are all equal). -/
def allEqual : List ℤ → Bool
  | [] => true
  | x :: xs => xs.all (fun y => y == x)

/-- `statistics.mean` of a list of integers, as an exact rational. -/
def listMean (xs : List ℤ) : ℚ := (xs.sum : ℚ) / (xs.length : ℚ)

/-- The `while True` polling loop of `Datapath.check_motion` over a stream `r`
of device motion readings (`r i` is the `i`-th parsed `'ms'` score).  Each
iteration appends one reading; if fewer than `sample_range` samples exist it
keeps polling; if exactly 20 samples exist it returns `int(mean(...))` of all
of them; otherwise (10..19 samples) it returns the latest reading when the
most recent 10 samples all agree, else keeps polling. -/
def check_motion_go (r : ℕ → ℤ) : ℕ → List ℤ → Option ℤ
  | 0, _ => none
  | fuel + 1, acc =>
    let acc' := acc ++ [r acc.length]
    if acc'.length < sample_range then check_motion_go r fuel acc'
    else if acc'.length = 20 then some (pyInt (listMean acc'))
    else if allEqual (lastWindow acc') then some (acc'.getLast?.getD 0)
    else check_motion_go r fuel acc'

/-- `Datapath.check_motion`, starting from the empty `self.motion_list`.  Fuel
20 suffices because the loop always stops at 20 samples. -/
def check_motion (r : ℕ → ℤ) : Option ℤ := check_motion_go r 20 []

/-- The stability test the loop applies after `n` samples have been collected:
the most recent 10 of the first `n` readings are all equal. -/
def stableAt (r : ℕ → ℤ) (n : ℕ) : Bool :=
  allEqual (lastWindow ((List.range n).map r))

/-- The first sample count in 10..19 at which the loop's zero-variance test
succeeds, if any. -/
def firstStable (r : ℕ → ℤ) : Option ℕ :=
  (List.range' 10 10).find? (stableAt r)

/-- Reference description of `check_motion`'s result (the amended C2): the
stability test is applied only at sample counts 10 through 19; at the first
success the latest reading is returned; otherwise the truncated mean of the
first 20 readings is returned — even when the most recent 10 of those 20
readings are all equal. -/
def check_motion_spec (r : ℕ → ℤ) : ℤ :=
  match firstStable r with
  | some n => r (n - 1)
  | none => pyInt (listMean ((List.range 20).map r))

/-- `Datapath.check_motion` over the raw console outputs: each poll parses the
device text; an unparsable output halts the loop with an error (the uncaught
exception aborting the scenario); otherwise the loop proceeds exactly as in
`check_motion_go`. -/
def check_motion_txt_go (outs : ℕ → String) : ℕ → List ℤ → Option (Except Unit ℤ)
  | 0, _ => none
  | fuel + 1, acc =>
    match parse_motion (outs acc.length) with
    | none => some (Except.error ())
    | some v =>
      let acc' := acc ++ [v]
      if acc'.length < sample_range then check_motion_txt_go outs fuel acc'
      else if acc'.length = 20 then some (Except.ok (pyInt (listMean acc')))
      else if allEqual (lastWindow acc') then some (Except.ok (acc'.getLast?.getD 0))
      else check_motion_txt_go outs fuel acc'

/-- `Datapath.check_motion` over raw console outputs, from the empty list. -/
def check_motion_txt (outs : ℕ → String) : Option (Except Unit ℤ) :=
  check_motion_txt_go outs 20 []

/-- One iteration's interval update of `Controller.make_motion`'s bisection:
midpoint `(x1+x2)/2`; if the sampled motion score is above the target the upper
bound comes down to the midpoint (`x2 = self.mo_size`), otherwise the lower
bound goes up to it (`x1 = self.mo_size`).  The `score` oracle abstracts the
`make_scene` / `pscc(30.0, 'motion')` round trip that stores `self.motion_score`
for a given `self.mo_size`. -/
def make_motion_step (score : ℚ → ℤ) (target : ℤ) (x1 x2 : ℚ) : ℚ × ℚ :=
  let mid := (x1 + x2) / 2
  if score mid > target then (x1, mid) else (mid, x2)

/-- The `while True` loop of `Controller.make_motion`, fuel-bounded: the loop
breaks only on `self.motion_score == self.motion_target` (exact equality). -/
def make_motion_loop (score : ℚ → ℤ) (target : ℤ) : ℕ → ℚ → ℚ → Option ℚ
  | 0, _, _ => none
  | fuel + 1, x1, x2 =>
    let mid := (x1 + x2) / 2
    if score mid = target then some mid
    else
      let p := make_motion_step score target x1 x2
      make_motion_loop score target fuel p.1 p.2

/-- `Controller.make_motion`: bisection for `self.mo_size` starting from the
interval `x1 = 0`, `x2 = self.hor_res`; returns the accepted motion-object
size if the loop terminates within `fuel` iterations. -/
def make_motion (score : ℚ → ℤ) (target : ℤ) (fuel : ℕ) : Option ℚ :=
  make_motion_loop score target fuel 0 (hor_res : ℚ)

/-- A concrete step score used to witness `make_motion` theorems. -/
def witness_score1 : ℚ → ℤ := fun q => if q < 1000 then 0 else 1

/-- A constant device score used to witness the `make_motion` invariant. -/
def witness_score5 : ℚ → ℤ := fun _ => 5

/-- The reading stream refuting C2 as stated: readings `0,1,...,9` followed by
constant `7`; the 10-sample window is first all-equal at sample count 20. -/
def c2_readings : ℕ → ℤ := fun i => if i < 10 then (i : ℤ) else 7

/-- The direction-finding loop of `Controller.hd_delta`: starting from the
current fineness, repeatedly step `self.fineness += 1` and compare the new
delta `abs(self.high_detail - self.high_detail_target)` with the initial
`delta_i`; the first time they differ, fix `self.direction` (−1 when the delta
grew, +1 when it shrank) and break.  The oracle `hs` maps a fineness to the
high-detail score the device reports for the scene rebuilt at that fineness
(the `make_scene` / `pscc(5.0, 'detail')` round trip). -/
def hd_probe (hs : ℤ → ℤ) (t : ℤ) (delta_i : ℤ) : ℕ → ℤ → Option (ℤ × ℤ × ℤ)
  | 0, _ => none
  | fuel + 1, f =>
    let f' := f + 1
    let d := |hs f' - t|
    if d > delta_i then some (f', d, -1)
    else if d < delta_i then some (f', d, 1)
    else hd_probe hs t delta_i fuel f'

/-- The descent loop of `Controller.hd_delta`: step fineness by the fixed
direction; while the delta shrinks keep going; the first time the delta grows,
step back one (`self.fineness += -self.direction`) and stop with that previous
fineness. -/
def hd_descend (hs : ℤ → ℤ) (t : ℤ) (dir : ℤ) : ℕ → ℤ → ℤ → Option ℤ
  | 0, _, _ => none
  | fuel + 1, f, delta =>
    let f' := f + dir
    let d := |hs f' - t|
    if d < delta then hd_descend hs t dir fuel f' d
    else if d > delta then some (f' - dir)
    else hd_descend hs t dir fuel f' d

/-- `Controller.hd_delta`: `delta_i` comes from the score `h0` stored before
the search; the probe loop fixes a direction, then the descent loop returns
the locally optimal fineness. -/
def hd_delta (hs : ℤ → ℤ) (t h0 f0 : ℤ) (fuel1 fuel2 : ℕ) : Option ℤ :=
  match hd_probe hs t (|h0 - t|) fuel1 f0 with
  | none => none
  | some (f, d, dir) => hd_descend hs t dir fuel2 f d

/-- The identity score used to witness the `hd_delta` theorems. -/
def c5_hs : ℤ → ℤ := fun f => f

/-- An auxiliary rectangle as passed to `make_scene`
(`{'x': .., 'y': .., 'length': .., 'height': ..}`). -/
structure Rect where
  x : ℚ
  y : ℚ
  length : ℚ
  height : ℚ
deriving DecidableEq

/-- `self.box_motion_margin`: the required distance between the auxiliary
rectangles and the motion object. -/
def box_motion_margin : ℕ := 100

/-- The squared radius of the motion object's bounding circle:
`(self.mo_size/2)**2 + (self.mo_size_y/2)**2` (the half-diagonal of the
rotating rectangle, squared). -/
def mo_radius_sq (mo_size : ℚ) : ℚ :=
  (mo_size / 2) ^ 2 + ((mo_size_y : ℚ) / 2) ^ 2

/-- `self.x_limit` in `Controller.ld_rect`: the maximum length rect1 or rect2
may have, `self.hor_res/2 - int(math.sqrt((self.mo_size/2)**2 +
(self.mo_size_y/2)**2)) - self.box_motion_margin`.  Note the `int(...)`
truncation applied to the radius. -/
def ld_x_limit (mo_size : ℚ) : ℚ :=
  (hor_res : ℚ) / 2 - (isqrt (mo_radius_sq mo_size) : ℚ) - (box_motion_margin : ℚ)

/-- `self.poss`: the x positions of rect1 (far left of the screen) and rect2
(`self.hor_res - self.x_limit`). -/
def ld_pos (mo_size : ℚ) (k : Fin 2) : ℚ :=
  if k = 0 then 0 else (hor_res : ℚ) - ld_x_limit mo_size

/-- The controller state `ld_rect` mutates: the two rectangles handed to
`make_scene` and the stored `self.lengths`. -/
structure LdState where
  rect1 : Rect
  rect2 : Rect
  len1 : ℚ
  len2 : ℚ
deriving DecidableEq

/-- `self.lengths[rect_num] = len`. -/
def ld_setLen (k : Fin 2) (len : ℚ) (st : LdState) : LdState :=
  if k = 0 then { st with len1 := len } else { st with len2 := len }

/-- `tune_rect`: rebuild `self.rects[rect_num]` from its position, its stored
length and the full display height, keeping the other rectangle; the rebuilt
scene is then scored by the oracle. -/
def ld_tune (mo_size : ℚ) (k : Fin 2) (st : LdState) : LdState :=
  if k = 0 then
    { st with rect1 := ⟨ld_pos mo_size 0, 0, st.len1, (ver_res : ℚ)⟩ }
  else
    { st with rect2 := ⟨ld_pos mo_size 1, 0, st.len2, (ver_res : ℚ)⟩ }

/-- The scene evaluation one bisection iteration performs: the tuned state for
the midpoint length `(x2+x1)/2 - poss[rect_num]` together with its low-detail
score. -/
def ld_iter (score : Rect → Rect → ℤ) (mo_size : ℚ) (k : Fin 2)
    (x1 x2 : ℚ) (st : LdState) : LdState × ℤ :=
  let len := (x2 + x1) / 2 - ld_pos mo_size k
  let st2 := ld_tune mo_size k (ld_setLen k len st)
  (st2, score st2.rect1 st2.rect2)

/-- The `while True` loop of `bisection` inside `Controller.ld_rect`: tune the
rectangle to the midpoint length and score the scene; move `x1` up to
`lengths[rect_num] + poss[rect_num]` when the low-detail score is below
`target - tolerance`, move `x2` down to it when above `target + tolerance`,
and break when within tolerance.  `score` abstracts the device's low-detail
score for the given pair of rectangles. -/
def ld_loop (score : Rect → Rect → ℤ) (target tol : ℤ) (mo_size : ℚ)
    (k : Fin 2) : ℕ → ℚ → ℚ → LdState → Option (LdState × ℤ)
  | 0, _, _, _ => none
  | fuel + 1, x1, x2, st =>
    let p := ld_iter score mo_size k x1 x2 st
    if p.2 < target - tol then
      ld_loop score target tol mo_size k fuel
        (((x2 + x1) / 2 - ld_pos mo_size k) + ld_pos mo_size k) x2 p.1
    else if p.2 > target + tol then
      ld_loop score target tol mo_size k fuel
        x1 (((x2 + x1) / 2 - ld_pos mo_size k) + ld_pos mo_size k) p.1
    else if |p.2 - target| ≤ tol then some p
    else ld_loop score target tol mo_size k fuel x1 x2 p.1

/-- `bisection(rect_num)`: the loop started from `x1 = self.poss[rect_num]`
and `x2 = self.x_limit + rect_num * (self.hor_res - self.x_limit)`. -/
def ld_bisection (score : Rect → Rect → ℤ) (target tol : ℤ) (mo_size : ℚ)
    (k : Fin 2) (fuel : ℕ) (st : LdState) : Option (LdState × ℤ) :=
  ld_loop score target tol mo_size k fuel (ld_pos mo_size k)
    (ld_x_limit mo_size + (k.val : ℚ) * ((hor_res : ℚ) - ld_x_limit mo_size)) st

/-- The initial rectangles of `ld_rect`: rect1 at the far left with its
maximum length `x_limit`, rect2 at `hor_res - x_limit` with length 0. -/
def ld_init (mo_size : ℚ) : LdState :=
  { rect1 := ⟨0, 0, ld_x_limit mo_size, (ver_res : ℚ)⟩
    rect2 := ⟨(hor_res : ℚ) - ld_x_limit mo_size, 0, 0, (ver_res : ℚ)⟩
    len1 := ld_x_limit mo_size
    len2 := 0 }

/-- The state after the opening `tune_rect(1)`: rect1 alone, at full length. -/
def ld_first (mo_size : ℚ) : LdState := ld_tune mo_size 0 (ld_init mo_size)

/-- `Controller.ld_rect`: evaluate rect1 alone at `x_limit`; if the low-detail
score undershoots `target - tolerance` switch to bisecting rect2; if it
overshoots `target + tolerance` bisect rect1; otherwise the target is already
met and the method returns with the opening state. -/
def ld_rect (score : Rect → Rect → ℤ) (target tol : ℤ) (mo_size : ℚ)
    (fuel : ℕ) : Option (LdState × ℤ) :=
  let st1 := ld_first mo_size
  let ld := score st1.rect1 st1.rect2
  if ld < target - tol then ld_bisection score target tol mo_size 1 fuel st1
  else if ld > target + tol then ld_bisection score target tol mo_size 0 fuel st1
  else some (st1, ld)

/-- The per-rectangle upper search bound: `x_limit` for rect1, `hor_res` for
rect2. -/
def ld_hi (mo_size : ℚ) (k : Fin 2) : ℚ :=
  if k = 0 then ld_x_limit mo_size else (hor_res : ℚ)

/-- Both rectangles stay inside the outer bands: rect1 spans within
`[0, x_limit]`, rect2 starts at `hor_res - x_limit` and ends by `hor_res`. -/
def ldBandInv (mo_size : ℚ) (st : LdState) : Prop :=
  st.rect1.x = 0
  ∧ st.rect1.x + st.rect1.length ≤ ld_x_limit mo_size
  ∧ st.rect2.x = (hor_res : ℚ) - ld_x_limit mo_size
  ∧ st.rect2.x + st.rect2.length ≤ (hor_res : ℚ)

/-- Membership of a point in the filled rectangle
`cairo.rectangle(x, y, length, height)` drawn by `draw_rect`. -/
def pointInRect (r : Rect) (p : ℚ × ℚ) : Prop :=
  r.x ≤ p.1 ∧ p.1 < r.x + r.length ∧ r.y ≤ p.2 ∧ p.2 < r.y + r.height

instance (r : Rect) (p : ℚ × ℚ) : Decidable (pointInRect r p) := by
  unfold pointInRect; infer_instance

/-- The point `p` clears the motion object's bounding circle (radius
`√(mo_radius_sq mo_size)` about the frame center) by strictly more than
`margin` pixels: already its horizontal distance from the center exceeds
radius + margin, stated without square roots by squaring. -/
def clearsMotionBy (mo_size margin : ℚ) (p : ℚ × ℚ) : Prop :=
  margin ≤ |p.1 - (hor_res : ℚ) / 2|
  ∧ mo_radius_sq mo_size < (|p.1 - (hor_res : ℚ) / 2| - margin) ^ 2

/-- A constant in-tolerance low-detail score used for witnesses. -/
def c4_score : Rect → Rect → ℤ := fun _ _ => 30

/-- Python `range(start, stop, step)` for a positive step. -/
def pyRange (start stop step : ℕ) : List ℕ :=
  (List.range ((stop - start + step - 1) / step)).map (fun k => start + k * step)

/-- The rotation angles `make_scene` renders: `range(0, 181, 9)`. -/
def make_scene_angles : List ℕ := pyRange 0 181 9

/-- The frame label `str(int(i/9))` for rotation angle `i`. -/
def frame_label (i : ℕ) : String := toString (i / 9)

/-- The (angle, label) pairs of the frames `make_scene` renders, in render
order. -/
def make_scene_frames : List (ℕ × String) :=
  make_scene_angles.map (fun i => (i, frame_label i))

/-- The encode frame rate: `framerate=50` in the ffmpeg input. -/
def make_scene_framerate : ℕ := 50

/-- `-stream_loop 1000`: number of extra loops of the short clip when the
3-minute file is produced. -/
def make_scene_stream_loop : ℕ := 1000

/-- `-t 03:00`: the trim-duration argument of the extension command. -/
def make_scene_trim : String := "03:00"

/-- Split a character list on `':'` separators. -/
def splitOnColon : List Char → List (List Char)
  | [] => [[]]
  | c :: rest =>
    let r := splitOnColon rest
    if c = ':' then [] :: r
    else
      match r with
      | [] => [[c]]
      | g :: gs => (c :: g) :: gs

/-- ffmpeg's `[MM:]SS` duration syntax for the `mm:ss` shape, in seconds
(modelling the documented meaning of the `-t` argument). -/
def parse_mmss (s : String) : Option ℕ :=
  match splitOnColon s.data with
  | [m, sec] =>
    if m ≠ [] ∧ sec ≠ [] ∧ m.all Char.isDigit ∧ sec.all Char.isDigit then
      some (digitsToNat m * 60 + digitsToNat sec)
    else none
  | _ => none

/-- `"{}\\bw_frames\\{}.mp4".format(self.filepath, name)`: the final clip
written by `make_scene` for a given scene name. -/
def make_scene_output (filepath name : List Char) : List Char :=
  filepath ++ ("\\bw_frames\\".data) ++ (name ++ (".mp4".data))

/-- The file `play_scene` always plays:
`'ffplay ... "{}\\bw_frames\\scene.mp4"'.format(self.filepath)` — the method
takes no file argument and hardcodes the name `scene.mp4`. -/
def play_scene_path (filepath : List Char) : List Char :=
  filepath ++ ("\\bw_frames\\scene.mp4".data)

/-- `pscc` starts playback via `play_scene()` in every branch before
capturing a frame or sampling motion, so the file exposed to the device is
always `play_scene`'s hardcoded one. -/
def pscc_play_path (filepath : List Char) : List Char := play_scene_path filepath

/-- `'high_{}%'.format(self.motion_target)`: the final scene name of
`Controller.high_detail_scenes`. -/
def high_scene_name (n : ℕ) : List Char :=
  ("high_".data) ++ (toString n).data ++ ("%".data)

/-- `'low_{}%'.format(self.motion_target)` in `Controller.low_detail_scenes`. -/
def low_scene_name (n : ℕ) : List Char :=
  ("low_".data) ++ (toString n).data ++ ("%".data)

/-- `'medium_{}%'.format(self.motion_target)` in
`Controller.medium_detail_scenes`. -/
def medium_scene_name (n : ℕ) : List Char :=
  ("medium_".data) ++ (toString n).data ++ ("%".data)

/-- A color, as cairo's `set_source_rgb` triple. -/
def Color : Type := ℚ × ℚ × ℚ

/-- An image, as a mapping from pixel coordinates to colors. -/
def Image : Type := ℚ × ℚ → Color

/-- `color_grey = {'r':0.5, 'g':0.5, 'b':0.5}` in `make_scene`. -/
def color_grey : Color := (1 / 2, 1 / 2, 1 / 2)

/-- `draw_rect`: `context.rectangle(x, y, length, height)` followed by
`fill()` with the given color — pixels inside the rectangle take the fill
color, every other pixel of the image is unchanged. -/
def draw_rect (rect_info : Rect) (color : Color) (img : Image) : Image :=
  fun p => if pointInRect rect_info p then color else img p

/-- The default auxiliary rectangle argument of `make_scene`:
`{'x':0, 'y':0, 'length':0, 'height':0}`. -/
def default_rect : Rect := ⟨0, 0, 0, 0⟩

/-- The checkerboard background of `make_frame`: a `fineness × fineness` tile
whose `0.75 × 0.75` corner fraction is black on white (`drawPattern` on a unit
square, scaled by `fineness`), repeated over the frame with `REPEAT`. -/
def bg_image (fineness : ℕ) : Image :=
  fun p =>
    let f : ℚ := (fineness : ℚ)
    let u := p.1 - f * ⌊p.1 / f⌋
    let v := p.2 - f * ⌊p.2 / f⌋
    if u < 3 / 4 * f ∧ v < 3 / 4 * f then (0, 0, 0) else (1, 1, 1)

/-- The compositing order of `make_frame`: checkerboard background, then the
two auxiliary rectangles in grey, then the rotated motion object drawn last on
top.  The rotation and rasterization of the motion object are the same in
every comparison and are abstracted as a final image transformation
`draw_motion`. -/
def make_frame_image (draw_motion : Image → Image) (fineness : ℕ)
    (rect1 rect2 : Rect) : Image :=
  draw_motion (draw_rect rect2 color_grey (draw_rect rect1 color_grey (bg_image fineness)))

/-- Rendering with no auxiliary rectangle drawn at all: the comparison image
of the spec's round-trip property, stated from the spec's words. -/
def make_frame_image_no_aux (draw_motion : Image → Image) (fineness : ℕ) : Image :=
  draw_motion (bg_image fineness)

theorem make_motion_loop_some (score : ℚ → ℤ) (target : ℤ) :
    ∀ fuel x1 x2 m, make_motion_loop score target fuel x1 x2 = some m →
      score m = target := by
  intro fuel
  induction fuel with
  | zero => intro x1 x2 m h; simp [make_motion_loop] at h
  | succ n ih =>
    intro x1 x2 m h
    rw [make_motion_loop] at h
    by_cases hc : score ((x1 + x2) / 2) = target
    · simp only [hc, if_pos, if_true] at h
      simp only [Option.some.injEq] at h
      subst h; exact hc
    · simp only [hc, if_false, if_neg, not_false_iff] at h
      exact ih _ _ _ h

/-- C1: `Controller.make_motion` searches `motionObjectSize` by bisection over
`[0, frameWidth]` with `frameWidth = 3840`; each iteration evaluates the
midpoint `(x1+x2)/2`; when the sampled score is above the target the upper
bound `x2` moves down to the midpoint, when it is below the lower bound `x1`
moves up to it; and the loop terminates only when the sampled motion score
equals the motion target exactly (no tolerance band). -/
theorem C1_make_motion_bisection (score : ℚ → ℤ) (target : ℤ) (fuel : ℕ) :
    (make_motion score target fuel = make_motion_loop score target fuel 0 3840)
    ∧ (∀ m, make_motion score target fuel = some m → score m = target)
    ∧ (∀ n x1 x2, score ((x1 + x2) / 2) = target →
        make_motion_loop score target (n + 1) x1 x2 = some ((x1 + x2) / 2))
    ∧ (∀ n x1 x2, score ((x1 + x2) / 2) > target →
        make_motion_loop score target (n + 1) x1 x2 =
          make_motion_loop score target n x1 ((x1 + x2) / 2))
    ∧ (∀ n x1 x2, score ((x1 + x2) / 2) < target →
        make_motion_loop score target (n + 1) x1 x2 =
          make_motion_loop score target n ((x1 + x2) / 2) x2) := by
  refine ⟨rfl, ?_, ?_, ?_, ?_⟩
  · intro m h; exact make_motion_loop_some score target fuel 0 _ m h
  · intro n x1 x2 h
    rw [make_motion_loop]
    simp [h]
  · intro n x1 x2 h
    have hne : ¬ score ((x1 + x2) / 2) = target := by
      intro he; rw [he] at h; exact lt_irrefl target h
    rw [make_motion_loop]
    simp only [hne, if_false, if_neg, not_false_iff]
    simp [make_motion_step, h]
  · intro n x1 x2 h
    have hne : ¬ score ((x1 + x2) / 2) = target := by
      intro he; rw [he] at h; exact lt_irrefl target h
    have hng : ¬ score ((x1 + x2) / 2) > target := not_lt.mpr (le_of_lt h)
    rw [make_motion_loop]
    simp only [hne, if_false, if_neg, not_false_iff]
    simp [make_motion_step, hng]

/-- Witness for C1: with the concrete device `witness_score1` and target 1 the
bisection accepts the first midpoint 1920, and the theorem recovers that any
accepted size has score exactly equal to the target. -/
theorem C1_witness :
    make_motion witness_score1 1 3 = some 1920 ∧ witness_score1 1920 = 1 := by
  have h1 : make_motion witness_score1 1 3 = some 1920 := by
    norm_num [make_motion, make_motion_loop, make_motion_step, witness_score1, hor_res]
  exact ⟨h1, (C1_make_motion_bisection witness_score1 1 3).2.1 1920 h1⟩

/-- C7: one non-terminating iteration of the `make_motion` bisection halves the
interval width exactly, and — for a device score monotone non-decreasing in
motion-object size — every size whose score equals the target stays inside the
updated interval `[x1, x2]`. -/
theorem C7_make_motion_invariant (score : ℚ → ℤ) (target : ℤ) (x1 x2 : ℚ)
    (hmono : ∀ a b : ℚ, a ≤ b → score a ≤ score b)
    (hne : score ((x1 + x2) / 2) ≠ target) :
    ((make_motion_step score target x1 x2).2 - (make_motion_step score target x1 x2).1
      = (x2 - x1) / 2)
    ∧ (∀ s : ℚ, x1 ≤ s → s ≤ x2 → score s = target →
        (make_motion_step score target x1 x2).1 ≤ s
        ∧ s ≤ (make_motion_step score target x1 x2).2) := by
  by_cases hgt : score ((x1 + x2) / 2) > target
  · constructor
    · simp only [make_motion_step, hgt, if_pos]
      ring
    · intro s hs1 hs2 hst
      simp only [make_motion_step, hgt, if_pos]
      refine ⟨hs1, ?_⟩
      by_contra hlt
      push_neg at hlt
      have h1 : score ((x1 + x2) / 2) ≤ score s := hmono _ _ (le_of_lt hlt)
      rw [hst] at h1
      exact absurd hgt (not_lt.mpr h1)
  · have hlt : score ((x1 + x2) / 2) < target :=
      lt_of_le_of_ne (not_lt.mp hgt) hne
    constructor
    · simp only [make_motion_step, hgt, if_neg, not_false_iff]
      ring
    · intro s hs1 hs2 hst
      simp only [make_motion_step, hgt, if_neg, not_false_iff]
      refine ⟨?_, hs2⟩
      by_contra hl
      push_neg at hl
      have h1 : score s ≤ score ((x1 + x2) / 2) := hmono _ _ (le_of_lt hl)
      rw [hst] at h1
      exact absurd hlt (not_lt.mpr h1)

/-- Witness for C7: for the constant score 5 and target 0 the iteration from
`[0, 3840]` halves the width to 1920. -/
theorem C7_witness :
    witness_score5 ((0 + 3840 : ℚ) / 2) ≠ 0
    ∧ ((make_motion_step witness_score5 0 0 3840).2
        - (make_motion_step witness_score5 0 0 3840).1 = (3840 - 0 : ℚ) / 2) := by
  refine ⟨by simp [witness_score5], ?_⟩
  exact (C7_make_motion_invariant witness_score5 0 0 3840
    (fun a b _ => le_refl 5) (by simp [witness_score5])).1

theorem pyInt_eq_floor (q : ℚ) (h : 0 ≤ q) : pyInt q = ⌊q⌋ := by
  unfold pyInt
  rw [Rat.floor_def]
  exact Int.tdiv_eq_ediv (Rat.num_nonneg.mpr h) (by exact_mod_cast Nat.zero_le q.den)

theorem range_map_snoc (r : ℕ → ℤ) (k : ℕ) :
    ((List.range k).map r) ++ [r (((List.range k).map r)).length] =
      (List.range (k + 1)).map r := by
  simp [List.range_succ]

theorem check_motion_go_small (r : ℕ → ℤ) (j k : ℕ) (h : k + 1 < 10) :
    check_motion_go r (j + 1) ((List.range k).map r) =
      check_motion_go r j ((List.range (k + 1)).map r) := by
  rw [check_motion_go]
  simp only [range_map_snoc]
  rw [if_pos]
  simp only [List.length_map, List.length_range, sample_range]
  omega

theorem getLastD_range_map (r : ℕ → ℤ) (k : ℕ) :
    (((List.range (k + 1)).map r).getLast?.getD 0) = r k := by
  rw [List.range_succ, List.map_append]
  simp [List.getLast?_concat]

theorem check_motion_go_spec (r : ℕ → ℤ) :
    ∀ j k, k + j = 20 → 9 ≤ k → k ≤ 19 →
      check_motion_go r j ((List.range k).map r) =
        some (match (List.range' (k + 1) (19 - k)).find? (stableAt r) with
              | some n => r (n - 1)
              | none => pyInt (listMean ((List.range 20).map r))) := by
  intro j
  induction j with
  | zero => intro k h1 h2 h3; omega
  | succ j ih =>
    intro k h1 h2 h3
    rw [check_motion_go]
    simp only [range_map_snoc]
    have hlen : ((List.range (k + 1)).map r).length = k + 1 := by simp
    rw [if_neg (by rw [hlen]; simp only [sample_range]; omega)]
    by_cases h19 : k = 19
    · subst h19
      rw [if_pos (by rw [hlen])]
      norm_num
    · rw [if_neg (by rw [hlen]; omega)]
      have hsplit : (19 - k) = (18 - k) + 1 := by omega
      rw [hsplit, List.range'_succ]
      by_cases hst : stableAt r (k + 1)
      · unfold stableAt at hst
        rw [if_pos hst, List.find?_cons_of_pos _ (by unfold stableAt; exact hst)]
        rw [getLastD_range_map]
        simp
      · unfold stableAt at hst
        rw [if_neg hst, List.find?_cons_of_neg _ (by unfold stableAt; exact hst)]
        have := ih (k + 1) (by omega) (by omega) (by omega)
        rw [this]
        have h18 : 19 - (k + 1) = 18 - k := by omega
        rw [h18]

theorem check_motion_go_prefix (r : ℕ → ℤ) :
    ∀ i, i ≤ 9 →
      check_motion_go r 20 ((List.range 0).map r) =
        check_motion_go r (20 - i) ((List.range i).map r) := by
  intro i
  induction i with
  | zero => intro _; rfl
  | succ n ih =>
    intro h
    rw [ih (by omega)]
    have h20 : 20 - n = (20 - (n + 1)) + 1 := by omega
    rw [h20, check_motion_go_small r _ n (by omega)]

theorem check_motion_eq_spec (r : ℕ → ℤ) :
    check_motion r = some (check_motion_spec r) := by
  have h1 : check_motion r = check_motion_go r 11 ((List.range 9).map r) := by
    unfold check_motion
    have h0 : ([] : List ℤ) = (List.range 0).map r := rfl
    rw [h0, check_motion_go_prefix r 9 (by omega)]
  rw [h1, check_motion_go_spec r 11 9 (by omega) (by omega) (by omega)]
  unfold check_motion_spec firstStable
  norm_num

/-- C2 (amended): the motion sampler appends one device reading per poll and is
bounded by 20 iterations, but the zero-variance stability test is applied only
at sample counts 10 through 19: at the first such count where the most recent
10 samples agree the latest reading is returned, and otherwise the loop stops
at exactly 20 samples and returns the truncated integer mean of all 20 — even
when the most recent 10 of those 20 samples are all equal. -/
theorem C2_check_motion_amended (r : ℕ → ℤ) :
    check_motion r = some (check_motion_spec r) :=
  check_motion_eq_spec r

/-- Counterexample to C2 as stated: with `c2_readings`, after the 20th sample
the most recent 10 samples are all equal (variance zero, latest reading 7), yet
`check_motion` returns the truncated mean 5 of all 20 samples, not the stable
value — because the 20-sample branch is tested before the variance check. -/
theorem C2_check_motion_counterexample :
    allEqual (lastWindow ((List.range 20).map c2_readings)) = true
    ∧ (((List.range 20).map c2_readings).getLast?.getD 0) = 7
    ∧ check_motion c2_readings = some 5
    ∧ (5 : ℤ) ≠ 7 := by
  refine ⟨by decide, by decide, ?_, by decide⟩
  rw [check_motion_eq_spec c2_readings]
  have hfs : firstStable c2_readings = none := by decide
  unfold check_motion_spec
  rw [hfs]
  show some (pyInt (listMean ((List.range 20).map c2_readings))) = some 5
  have hsum : ((List.range 20).map c2_readings).sum = 115 := by decide
  have hlen : ((List.range 20).map c2_readings).length = 20 := by decide
  unfold listMean
  rw [hsum, hlen]
  rw [pyInt_eq_floor _ (by norm_num)]
  congr 1
  rw [Int.floor_eq_iff]
  constructor <;> norm_num

/-- C3 (amended): when the expected score pattern is absent, the two
extraction paths behave differently.  `check_detail` does not fail at all: an
absent `HighDetail`/`LowDetail` pattern leaves the previously stored score in
place and the method returns normally (no `ScoreParseError` exists in the
code).  Only `check_motion`'s parse halts the scenario, via the uncaught
exception from `.group(1)` on a failed `re.search`. -/
theorem C3_parse_failure_amended (out : String) (st : DetailScores)
    (outs : ℕ → String) :
    (searchHighDetail out = none → searchLowDetail out = none →
      check_detail out st = st)
    ∧ (searchHighDetail out = none →
        (check_detail out st).high_detail = st.high_detail)
    ∧ (searchLowDetail out = none →
        (check_detail out st).low_detail = st.low_detail)
    ∧ (searchMotion (outs 0) = none →
        check_motion_txt outs = some (Except.error ())) := by
  refine ⟨?_, ?_, ?_, ?_⟩
  · intro h1 h2; simp [check_detail, h1, h2]
  · intro h1; simp [check_detail, h1]
  · intro h2; simp [check_detail, h2]
  · intro h
    rw [check_motion_txt, check_motion_txt_go]
    simp [parse_motion, h]

/-- Counterexample to C3 as stated: on the pattern-free tool output
`"no scores here"` the detail extraction succeeds and leaves the previously
stored scores (42 and 17) in place — no error is signalled, contradicting the
claim that a `ScoreParseError` halts the scenario rather than leaving stored
scores in place. -/
theorem C3_check_detail_counterexample :
    searchHighDetail ("no scores here") = none
    ∧ searchLowDetail ("no scores here") = none
    ∧ check_detail ("no scores here") ⟨some 42, some 17⟩ = ⟨some 42, some 17⟩ := by
  exact ⟨by decide, by decide, by decide⟩

/-- Witness for C3 (amended): concrete instantiation on the unparsable output
`"junk"`: the stored detail scores survive unchanged, and the motion path
halts with an error on its first poll. -/
theorem C3_witness :
    check_detail ("junk") ⟨some 1, some 2⟩ = ⟨some 1, some 2⟩
    ∧ check_motion_txt (fun _ => "junk") = some (Except.error ()) := by
  constructor
  · exact (C3_parse_failure_amended ("junk") ⟨some 1, some 2⟩
      (fun _ => "junk")).1 (by decide) (by decide)
  · exact (C3_parse_failure_amended ("junk") ⟨some 1, some 2⟩
      (fun _ => "junk")).2.2.2 (by decide)

theorem hd_descend_localopt (hs : ℤ → ℤ) (t dir : ℤ) :
    ∀ fuel f fstar, hd_descend hs t dir fuel f (|hs f - t|) = some fstar →
      |hs (fstar + dir) - t| > |hs fstar - t| := by
  intro fuel
  induction fuel with
  | zero => intro f fstar h; simp [hd_descend] at h
  | succ n ih =>
    intro f fstar h
    rw [hd_descend] at h
    by_cases h1 : |hs (f + dir) - t| < |hs f - t|
    · simp only [h1, if_pos, if_true] at h
      exact ih (f + dir) fstar h
    · simp only [h1, if_false, if_neg, not_false_iff] at h
      by_cases h2 : |hs (f + dir) - t| > |hs f - t|
      · simp only [h2, if_pos, if_true, Option.some.injEq] at h
        have hf : fstar = f := by omega
        subst hf
        exact h2
      · simp only [h2, if_false, if_neg, not_false_iff] at h
        exact ih (f + dir) fstar h

/-- C5: `Controller.hd_delta` probes one step of `+1` from the current
fineness and fixes the search direction by comparing the new
`|high_detail − target|` delta with the initial one (+1 when it shrank, −1
when it grew); the descent loop then keeps stepping fineness by that direction
while the delta shrinks, and the first time the delta grows it steps fineness
back by one and stops, so the accepted fineness is the previous one and is
locally optimal in the search direction. -/
theorem C5_hd_delta_search (hs : ℤ → ℤ) (t h0 f0 dir delta : ℤ) (fuel : ℕ) :
    (|hs (f0 + 1) - t| < |h0 - t| →
      hd_probe hs t (|h0 - t|) (fuel + 1) f0 = some (f0 + 1, |hs (f0 + 1) - t|, 1))
    ∧ (|hs (f0 + 1) - t| > |h0 - t| →
      hd_probe hs t (|h0 - t|) (fuel + 1) f0 = some (f0 + 1, |hs (f0 + 1) - t|, -1))
    ∧ (|hs (f0 + dir) - t| < delta →
        hd_descend hs t dir (fuel + 1) f0 delta =
          hd_descend hs t dir fuel (f0 + dir) (|hs (f0 + dir) - t|))
    ∧ (|hs (f0 + dir) - t| > delta →
        hd_descend hs t dir (fuel + 1) f0 delta = some f0)
    ∧ (∀ fstar, hd_descend hs t dir fuel f0 (|hs f0 - t|) = some fstar →
        |hs (fstar + dir) - t| > |hs fstar - t|)
    ∧ (|hs (f0 + 1) - t| < |h0 - t| →
        hd_delta hs t h0 f0 (fuel + 1) fuel =
          hd_descend hs t 1 fuel (f0 + 1) (|hs (f0 + 1) - t|)) := by
  have hprobe1 : |hs (f0 + 1) - t| < |h0 - t| →
      hd_probe hs t (|h0 - t|) (fuel + 1) f0 =
        some (f0 + 1, |hs (f0 + 1) - t|, 1) := by
    intro h
    rw [hd_probe]
    rw [if_neg (by omega), if_pos h]
  refine ⟨hprobe1, ?_, ?_, ?_, ?_, ?_⟩
  · intro h
    rw [hd_probe]
    rw [if_pos h]
  · intro h
    rw [hd_descend]
    rw [if_pos h]
  · intro h
    rw [hd_descend]
    rw [if_neg (by omega), if_pos h]
    congr 1
    omega
  · exact hd_descend_localopt hs t dir fuel f0
  · intro h
    rw [hd_delta, hprobe1 h]

/-- Witness for C5: with the identity score `c5_hs` and target 10, descending
from fineness 7 (delta 3) the loop returns fineness 10, and the theorem
recovers that the delta grows again one step past the accepted fineness. -/
theorem C5_witness :
    hd_descend c5_hs 10 1 6 7 (|c5_hs 7 - 10|) = some 10
    ∧ |c5_hs (10 + 1) - 10| > |c5_hs 10 - 10| := by
  have h : hd_descend c5_hs 10 1 6 7 (|c5_hs 7 - 10|) = some 10 := by decide
  exact ⟨h, (C5_hd_delta_search c5_hs 10 0 7 1 0 6).2.2.2.2.1 10 h⟩

theorem ld_loop_tol (score : Rect → Rect → ℤ) (target tol : ℤ) (mo_size : ℚ)
    (k : Fin 2) :
    ∀ fuel x1 x2 st st2 ld,
      ld_loop score target tol mo_size k fuel x1 x2 st = some (st2, ld) →
      |ld - target| ≤ tol := by
  intro fuel
  induction fuel with
  | zero => intro x1 x2 st st2 ld h; simp [ld_loop] at h
  | succ n ih =>
    intro x1 x2 st st2 ld h
    rw [ld_loop] at h
    split_ifs at h with h1 h2 h3
    · exact ih _ _ _ _ _ h
    · exact ih _ _ _ _ _ h
    · simp only [Option.some.injEq] at h
      have h2' := congrArg Prod.snd h
      simp only at h2'
      rw [← h2']
      exact h3
    · exact ih _ _ _ _ _ h

theorem ld_loop_exit (score : Rect → Rect → ℤ) (target tol : ℤ) (mo_size : ℚ)
    (k : Fin 2) (n : ℕ) (x1 x2 : ℚ) (st : LdState)
    (h : |(ld_iter score mo_size k x1 x2 st).2 - target| ≤ tol) :
    ld_loop score target tol mo_size k (n + 1) x1 x2 st =
      some (ld_iter score mo_size k x1 x2 st) := by
  have hab := abs_le.mp h
  rw [ld_loop]
  rw [if_neg (by omega), if_neg (by omega), if_pos h]

/-- C4: `Controller.ld_rect` first evaluates rect1 alone at its maximum
allowed length `x_limit`; when the low-detail score is below
`target - tolerance` it switches to bisecting rect2 over
`[rect2 position, frameWidth]`, and when above `target + tolerance` it bisects
rect1 over `[0, x_limit]`; in either branch the bisection loop returns exactly
when `|low-detail score − target| ≤ tolerance`. -/
theorem C4_ld_rect_bisection (score : Rect → Rect → ℤ) (target tol : ℤ)
    (mo_size : ℚ) (fuel : ℕ) (htol : 0 ≤ tol) :
    ((ld_first mo_size).rect1 = ⟨0, 0, ld_x_limit mo_size, (ver_res : ℚ)⟩
      ∧ (ld_first mo_size).rect2.length = 0)
    ∧ (score (ld_first mo_size).rect1 (ld_first mo_size).rect2 < target - tol →
        ld_rect score target tol mo_size fuel =
          ld_loop score target tol mo_size 1 fuel
            ((hor_res : ℚ) - ld_x_limit mo_size) (hor_res : ℚ) (ld_first mo_size))
    ∧ (score (ld_first mo_size).rect1 (ld_first mo_size).rect2 > target + tol →
        ld_rect score target tol mo_size fuel =
          ld_loop score target tol mo_size 0 fuel
            0 (ld_x_limit mo_size) (ld_first mo_size))
    ∧ (∀ (k : Fin 2) n x1 x2 st st2 ld,
        ld_loop score target tol mo_size k n x1 x2 st = some (st2, ld) →
        |ld - target| ≤ tol)
    ∧ (∀ (k : Fin 2) n x1 x2 st,
        |(ld_iter score mo_size k x1 x2 st).2 - target| ≤ tol →
        ld_loop score target tol mo_size k (n + 1) x1 x2 st =
          some (ld_iter score mo_size k x1 x2 st)) := by
  have hb1 : ld_pos mo_size 1 = (hor_res : ℚ) - ld_x_limit mo_size := by
    simp [ld_pos]
  have hb2 : ld_x_limit mo_size + ((1 : Fin 2).val : ℚ) *
      ((hor_res : ℚ) - ld_x_limit mo_size) = (hor_res : ℚ) := by
    norm_num
  have hb3 : ld_pos mo_size 0 = 0 := by simp [ld_pos]
  have hb4 : ld_x_limit mo_size + ((0 : Fin 2).val : ℚ) *
      ((hor_res : ℚ) - ld_x_limit mo_size) = ld_x_limit mo_size := by
    norm_num
  refine ⟨⟨?_, ?_⟩, ?_, ?_, ?_, ?_⟩
  · simp [ld_first, ld_tune, ld_init, ld_pos]
  · simp [ld_first, ld_tune, ld_init]
  · intro h
    rw [ld_rect]
    simp only [if_pos h]
    rw [ld_bisection, hb1, hb2]
  · intro h
    have hne : ¬ score (ld_first mo_size).rect1 (ld_first mo_size).rect2 <
        target - tol := by omega
    rw [ld_rect]
    simp only [if_neg hne, if_pos h]
    rw [ld_bisection, hb3, hb4]
  · intro k n x1 x2 st st2 ld h
    exact ld_loop_tol score target tol mo_size k n x1 x2 st st2 ld h
  · intro k n x1 x2 st h
    exact ld_loop_exit score target tol mo_size k n x1 x2 st h

/-- Witness for C4: with the constant low-detail score 30 and target 30 ± 2
the bisection loop for rect1 returns its first evaluation immediately, because
the score is within tolerance. -/
theorem C4_witness :
    |(ld_iter c4_score 600 0 0 (ld_x_limit 600) (ld_first 600)).2 - 30| ≤ 2
    ∧ ld_loop c4_score 30 2 600 0 1 0 (ld_x_limit 600) (ld_first 600) =
        some (ld_iter c4_score 600 0 0 (ld_x_limit 600) (ld_first 600)) := by
  have h : |(ld_iter c4_score 600 0 0 (ld_x_limit 600) (ld_first 600)).2 - 30|
      ≤ (2 : ℤ) := by
    norm_num [ld_iter, c4_score]
  exact ⟨h, (C4_ld_rect_bisection c4_score 30 2 600 1 (by decide)).2.2.2.2
    0 0 0 (ld_x_limit 600) (ld_first 600) h⟩

theorem isqrt_succ_sq (q : ℚ) (h : 0 ≤ q) : q < ((isqrt q : ℚ) + 1) ^ 2 := by
  have hfl : 0 ≤ ⌊q⌋ := Int.floor_nonneg.mpr h
  have h4 : q < (⌊q⌋ : ℚ) + 1 := Int.lt_floor_add_one q
  have h3 : ⌊q⌋.toNat + 1 ≤ (Nat.sqrt ⌊q⌋.toNat + 1) ^ 2 := by
    rw [pow_two]
    exact Nat.succ_le_of_lt (Nat.lt_succ_sqrt ⌊q⌋.toNat)
  have h5 : ((⌊q⌋.toNat : ℕ) : ℚ) = ((⌊q⌋ : ℤ) : ℚ) := by
    exact_mod_cast congrArg (fun z : ℤ => (z : ℚ)) (Int.toNat_of_nonneg hfl)
  have h6 : ((⌊q⌋.toNat : ℕ) : ℚ) + 1 ≤ (((Nat.sqrt ⌊q⌋.toNat : ℕ) : ℚ) + 1) ^ 2 := by
    exact_mod_cast h3
  unfold isqrt
  calc q < (⌊q⌋ : ℚ) + 1 := h4
    _ = ((⌊q⌋.toNat : ℕ) : ℚ) + 1 := by rw [h5]
    _ ≤ ((Nat.sqrt ⌊q⌋.toNat : ℚ) + 1) ^ 2 := h6

theorem mo_radius_sq_nonneg (mo_size : ℚ) : 0 ≤ mo_radius_sq mo_size := by
  unfold mo_radius_sq
  positivity

theorem half_hor_res : (hor_res : ℚ) / 2 = 1920 := by norm_num [hor_res]

theorem ld_x_limit_eq (mo_size : ℚ) :
    ld_x_limit mo_size = 1920 - (isqrt (mo_radius_sq mo_size) : ℚ) - 100 := by
  unfold ld_x_limit
  rw [half_hor_res]
  norm_num [box_motion_margin]

theorem clears_left (mo_size : ℚ) (p : ℚ × ℚ) (hp : p.1 ≤ ld_x_limit mo_size) :
    clearsMotionBy mo_size 99 p := by
  have hsq := isqrt_succ_sq (mo_radius_sq mo_size) (mo_radius_sq_nonneg mo_size)
  have hs0 : (0 : ℚ) ≤ (isqrt (mo_radius_sq mo_size) : ℚ) := by positivity
  have hxl := ld_x_limit_eq mo_size
  have hd : (isqrt (mo_radius_sq mo_size) : ℚ) + 100 ≤ 1920 - p.1 := by
    rw [hxl] at hp; linarith
  have habs : |p.1 - (hor_res : ℚ) / 2| = 1920 - p.1 := by
    rw [half_hor_res, abs_of_nonpos (by linarith)]
    ring
  unfold clearsMotionBy
  rw [habs]
  constructor
  · linarith
  · have h1 : (isqrt (mo_radius_sq mo_size) : ℚ) + 1 ≤ (1920 - p.1) - 99 := by
      linarith
    have h2 : ((isqrt (mo_radius_sq mo_size) : ℚ) + 1) ^ 2 ≤ ((1920 - p.1) - 99) ^ 2 := by
      have hb : (0 : ℚ) ≤ (isqrt (mo_radius_sq mo_size) : ℚ) + 1 := by linarith
      exact pow_le_pow_left₀ hb h1 2
    linarith

theorem clears_right (mo_size : ℚ) (p : ℚ × ℚ)
    (hp : (hor_res : ℚ) - ld_x_limit mo_size ≤ p.1) :
    clearsMotionBy mo_size 99 p := by
  have hsq := isqrt_succ_sq (mo_radius_sq mo_size) (mo_radius_sq_nonneg mo_size)
  have hs0 : (0 : ℚ) ≤ (isqrt (mo_radius_sq mo_size) : ℚ) := by positivity
  have hxl := ld_x_limit_eq mo_size
  have hhor : (hor_res : ℚ) = 3840 := by norm_num [hor_res]
  have hd : (isqrt (mo_radius_sq mo_size) : ℚ) + 100 ≤ p.1 - 1920 := by
    rw [hxl, hhor] at hp; linarith
  have habs : |p.1 - (hor_res : ℚ) / 2| = p.1 - 1920 := by
    rw [half_hor_res, abs_of_nonneg (by linarith)]
  unfold clearsMotionBy
  rw [habs]
  constructor
  · linarith
  · have h1 : (isqrt (mo_radius_sq mo_size) : ℚ) + 1 ≤ (p.1 - 1920) - 99 := by
      linarith
    have h2 : ((isqrt (mo_radius_sq mo_size) : ℚ) + 1) ^ 2 ≤ ((p.1 - 1920) - 99) ^ 2 := by
      have hb : (0 : ℚ) ≤ (isqrt (mo_radius_sq mo_size) : ℚ) + 1 := by linarith
      exact pow_le_pow_left₀ hb h1 2
    linarith

theorem ld_first_band (mo_size : ℚ) (h0 : 0 ≤ ld_x_limit mo_size) :
    ldBandInv mo_size (ld_first mo_size) := by
  unfold ldBandInv ld_first ld_tune ld_init ld_pos
  norm_num
  exact h0

theorem ld_iter_fst_zero (score : Rect → Rect → ℤ) (mo_size x1 x2 : ℚ)
    (st : LdState) :
    (ld_iter score mo_size 0 x1 x2 st).1 =
      { st with rect1 := ⟨0, 0, (x2 + x1) / 2 - 0, (ver_res : ℚ)⟩
                len1 := (x2 + x1) / 2 - 0 } := rfl

theorem ld_iter_fst_one (score : Rect → Rect → ℤ) (mo_size x1 x2 : ℚ)
    (st : LdState) :
    (ld_iter score mo_size 1 x1 x2 st).1 =
      { st with
          rect2 := ⟨(hor_res : ℚ) - ld_x_limit mo_size, 0,
            (x2 + x1) / 2 - ((hor_res : ℚ) - ld_x_limit mo_size), (ver_res : ℚ)⟩
          len2 := (x2 + x1) / 2 - ((hor_res : ℚ) - ld_x_limit mo_size) } := rfl

theorem ld_iter_band (score : Rect → Rect → ℤ) (mo_size : ℚ) (k : Fin 2)
    (x1 x2 : ℚ) (st : LdState)
    (hml : ld_pos mo_size k ≤ (x2 + x1) / 2)
    (hmh : (x2 + x1) / 2 ≤ ld_hi mo_size k)
    (hinv : ldBandInv mo_size st) :
    ldBandInv mo_size (ld_iter score mo_size k x1 x2 st).1 := by
  obtain ⟨h1, h2, h3, h4⟩ := hinv
  by_cases hk : k = 0
  · subst hk
    simp only [ld_pos] at hml
    simp only [ld_hi] at hmh
    norm_num at hml hmh
    rw [ld_iter_fst_zero]
    unfold ldBandInv
    refine ⟨rfl, by simp only []; linarith, h3, h4⟩
  · have hk1 : k = 1 := by omega
    subst hk1
    simp only [ld_pos] at hml
    simp only [ld_hi] at hmh
    norm_num at hml hmh
    rw [ld_iter_fst_one]
    unfold ldBandInv
    refine ⟨h1, h2, rfl, by simp only []; linarith⟩

theorem ld_loop_band (score : Rect → Rect → ℤ) (target tol : ℤ) (mo_size : ℚ)
    (k : Fin 2) :
    ∀ fuel x1 x2 st st2 ld,
      ld_pos mo_size k ≤ x1 → x1 ≤ ld_hi mo_size k →
      ld_pos mo_size k ≤ x2 → x2 ≤ ld_hi mo_size k →
      ldBandInv mo_size st →
      ld_loop score target tol mo_size k fuel x1 x2 st = some (st2, ld) →
      ldBandInv mo_size st2 := by
  intro fuel
  induction fuel with
  | zero => intro x1 x2 st st2 ld _ _ _ _ _ h; simp [ld_loop] at h
  | succ n ih =>
    intro x1 x2 st st2 ld hx1l hx1h hx2l hx2h hinv h
    have hml : ld_pos mo_size k ≤ (x2 + x1) / 2 := by linarith
    have hmh : (x2 + x1) / 2 ≤ ld_hi mo_size k := by linarith
    have hib := ld_iter_band score mo_size k x1 x2 st hml hmh hinv
    have hmid : ((x2 + x1) / 2 - ld_pos mo_size k) + ld_pos mo_size k
        = (x2 + x1) / 2 := by ring
    rw [ld_loop] at h
    rw [hmid] at h
    split_ifs at h with h1 h2 h3
    · exact ih _ _ _ _ _ hml hmh hx2l hx2h hib h
    · exact ih _ _ _ _ _ hx1l hx1h hml hmh hib h
    · simp only [Option.some.injEq] at h
      have h2' := congrArg Prod.fst h
      simp only at h2'
      rw [← h2']
      exact hib
    · exact ih _ _ _ _ _ hx1l hx1h hx2l hx2h hib h

theorem ld_rect_band (score : Rect → Rect → ℤ) (target tol : ℤ) (mo_size : ℚ)
    (fuel : ℕ) (h0 : 0 ≤ ld_x_limit mo_size) :
    ∀ st2 ld, ld_rect score target tol mo_size fuel = some (st2, ld) →
      ldBandInv mo_size st2 := by
  intro st2 ld h
  have hfb := ld_first_band mo_size h0
  rw [ld_rect] at h
  split_ifs at h with h1 h2
  · rw [ld_bisection] at h
    have hb2 : ld_x_limit mo_size + ((1 : Fin 2).val : ℚ) *
        ((hor_res : ℚ) - ld_x_limit mo_size) = (hor_res : ℚ) := by norm_num
    rw [hb2] at h
    refine ld_loop_band score target tol mo_size 1 fuel _ _ _ st2 ld ?_ ?_ ?_ ?_ hfb h
    · exact le_refl _
    · simp [ld_pos, ld_hi]; linarith
    · simp [ld_pos, ld_hi]; linarith
    · simp [ld_hi]
  · rw [ld_bisection] at h
    have hb4 : ld_x_limit mo_size + ((0 : Fin 2).val : ℚ) *
        ((hor_res : ℚ) - ld_x_limit mo_size) = ld_x_limit mo_size := by norm_num
    rw [hb4] at h
    refine ld_loop_band score target tol mo_size 0 fuel _ _ _ st2 ld ?_ ?_ ?_ ?_ hfb h
    · exact le_refl _
    · simp [ld_pos, ld_hi]; exact h0
    · simp [ld_pos, ld_hi]; exact h0
    · simp [ld_hi]
  · simp only [Option.some.injEq, Prod.mk.injEq] at h
    obtain ⟨hst, _⟩ := h
    rw [← hst]
    exact hfb

theorem ld_first_rect1 (mo_size : ℚ) :
    (ld_first mo_size).rect1 = ⟨0, 0, ld_x_limit mo_size, (ver_res : ℚ)⟩ := rfl

theorem ld_first_rect2 (mo_size : ℚ) :
    (ld_first mo_size).rect2 =
      ⟨(hor_res : ℚ) - ld_x_limit mo_size, 0, 0, (ver_res : ℚ)⟩ := rfl

theorem mo_radius_sq_600 : mo_radius_sq 600 = 126864 := by
  norm_num [mo_radius_sq, mo_size_y]

theorem isqrt_600 : isqrt (mo_radius_sq 600) = 356 := by
  rw [mo_radius_sq_600]
  unfold isqrt
  have hf : ⌊(126864 : ℚ)⌋ = 126864 := by norm_num
  rw [hf]
  have ht : (126864 : ℤ).toNat = 126864 := rfl
  rw [ht]
  have h1 : 356 ≤ Nat.sqrt 126864 := Nat.le_sqrt.mpr (by norm_num)
  have h2 : Nat.sqrt 126864 < 357 := Nat.sqrt_lt.mpr (by norm_num)
  omega

theorem ld_x_limit_600 : ld_x_limit 600 = 1464 := by
  rw [ld_x_limit_eq, isqrt_600]
  norm_num

/-- C8 (amended): `ld_rect`'s `x_limit` is `frameWidth/2 − ⌊radius⌋ − 100`,
with the radius of the motion object's bounding circle truncated to an integer
by `int(math.sqrt(...))`.  Consequently every auxiliary rectangle it
constructs (rect1 within `[0, x_limit]`, rect2 from `frameWidth − x_limit`
rightwards) clears the bounding circle by strictly more than 99 pixels — not
always the full 100 — and in particular never overlaps the bounding circle,
hence never the rotating motion object at any angle. -/
theorem C8_ld_rect_margin_amended (score : Rect → Rect → ℤ) (target tol : ℤ)
    (mo_size : ℚ) (fuel : ℕ) (h0 : 0 ≤ ld_x_limit mo_size) :
    (ld_x_limit mo_size
      = (hor_res : ℚ) / 2 - (isqrt (mo_radius_sq mo_size) : ℚ) - 100)
    ∧ (∀ p : ℚ × ℚ, p.1 ≤ ld_x_limit mo_size → clearsMotionBy mo_size 99 p)
    ∧ (∀ p : ℚ × ℚ, (hor_res : ℚ) - ld_x_limit mo_size ≤ p.1 →
        clearsMotionBy mo_size 99 p)
    ∧ (∀ p, pointInRect (ld_first mo_size).rect1 p ∨
          pointInRect (ld_first mo_size).rect2 p →
        clearsMotionBy mo_size 99 p)
    ∧ (∀ st2 ld, ld_rect score target tol mo_size fuel = some (st2, ld) →
        ldBandInv mo_size st2
        ∧ (∀ p, pointInRect st2.rect1 p ∨ pointInRect st2.rect2 p →
            clearsMotionBy mo_size 99 p)) := by
  refine ⟨?_, fun p hp => clears_left mo_size p hp,
          fun p hp => clears_right mo_size p hp, ?_, ?_⟩
  · unfold ld_x_limit
    rw [half_hor_res]
    norm_num [box_motion_margin]
  · intro p hp
    rcases hp with hp | hp
    · rw [ld_first_rect1] at hp
      obtain ⟨_, hpb, _, _⟩ := hp
      exact clears_left mo_size p (by simp only [] at hpb; linarith)
    · rw [ld_first_rect2] at hp
      exact clears_right mo_size p hp.1
  · intro st2 ld h
    have hband := ld_rect_band score target tol mo_size fuel h0 st2 ld h
    obtain ⟨hb1, hb2, hb3, hb4⟩ := hband
    refine ⟨⟨hb1, hb2, hb3, hb4⟩, ?_⟩
    intro p hp
    rcases hp with hp | hp
    · obtain ⟨hpa, hpb, _, _⟩ := hp
      exact clears_left mo_size p (by linarith)
    · obtain ⟨hpa, _, _, _⟩ := hp
      exact clears_right mo_size p (by rw [← hb3]; exact hpa)

/-- Counterexample to C8 as stated: at motion size 600 the code's `x_limit` is
1464, using the truncated radius `⌊√126864⌋ = 356`, while the claim's formula
`frameWidth/2 − radius − 100` is strictly smaller (`356² < 126864`).  The
point `(1463.9, 1080)` lies inside the maximal rect1 that `ld_rect` constructs
and passes to `make_scene`, at the motion object's center height, at distance
456.1 from the rotation center; `(456.1 − 100)² < 126864 = radius²`, so the
point is strictly inside the bounding circle enlarged by the 100-pixel margin:
the claimed 100-pixel clearance is violated (by a sub-pixel amount). -/
theorem C8_ld_rect_margin_counterexample :
    ld_x_limit 600 = 1464
    ∧ mo_radius_sq 600 = 126864
    ∧ ((hor_res : ℚ) / 2 - ld_x_limit 600 - 100) ^ 2 < mo_radius_sq 600
    ∧ pointInRect (ld_first 600).rect1 (14639 / 10, 1080)
    ∧ ((1080 : ℚ) = (ver_res : ℚ) / 2)
    ∧ (100 : ℚ) ≤ |(14639 / 10 : ℚ) - (hor_res : ℚ) / 2|
    ∧ (|(14639 / 10 : ℚ) - (hor_res : ℚ) / 2| - 100) ^ 2 < mo_radius_sq 600
    ∧ ¬ clearsMotionBy 600 100 (14639 / 10, 1080) := by
  have h1 : ld_x_limit 600 = 1464 := ld_x_limit_600
  have h2 : mo_radius_sq 600 = 126864 := mo_radius_sq_600
  have habs : |(14639 / 10 : ℚ) - (hor_res : ℚ) / 2| = 4561 / 10 := by
    rw [half_hor_res, abs_of_nonpos (by norm_num)]
    norm_num
  refine ⟨h1, h2, ?_, ?_, by norm_num [ver_res], ?_, ?_, ?_⟩
  · rw [h1, h2, half_hor_res]
    norm_num
  · rw [ld_first_rect1, h1]
    unfold pointInRect
    norm_num [ver_res]
  · rw [habs]
    norm_num
  · rw [habs, h2]
    norm_num
  · unfold clearsMotionBy
    rw [habs, h2]
    intro hcon
    have hc2 := hcon.2
    norm_num at hc2

/-- Witness for C8 (amended): at motion size 600 the `x_limit` bound is
nonnegative, and the far-left point of rect1's band clears the bounding circle
by more than 99 pixels. -/
theorem C8_witness :
    (0 : ℚ) ≤ ld_x_limit 600 ∧ clearsMotionBy 600 99 (0, 0) := by
  have h0 : (0 : ℚ) ≤ ld_x_limit 600 := by
    rw [ld_x_limit_600]; norm_num
  exact ⟨h0, (C8_ld_rect_margin_amended (fun _ _ => 0) 0 0 600 1 h0).2.1 (0, 0)
    (by rw [ld_x_limit_600]; norm_num)⟩

/-- C6: `Datapath.make_scene` renders exactly 21 frames, one per rotation
angle `0, 9, ..., 180` in ascending order with labels `0..20`, encodes them at
the fixed 50 fps rate, and loops the short clip 1000 extra times (≥ 1000)
while trimming to `03:00` = 180 seconds; the final clip's path carries the
supplied scene name, and the looped footage (≥ 1001 × 21 frames at 50 fps)
covers the 3-minute target. -/
theorem C6_make_scene_assembly :
    make_scene_frames = (List.range 21).map (fun k => (9 * k, toString k))
    ∧ make_scene_frames.length = 21
    ∧ make_scene_angles.Chain' (· < ·)
    ∧ make_scene_framerate = 50
    ∧ 1000 ≤ make_scene_stream_loop
    ∧ parse_mmss make_scene_trim = some 180
    ∧ (∀ filepath name : List Char,
        make_scene_output filepath name
          = filepath ++ ("\\bw_frames\\".data) ++ (name ++ (".mp4".data)))
    ∧ make_scene_framerate * 180
        ≤ (make_scene_stream_loop + 1) * make_scene_frames.length := by
  have hangles : make_scene_angles = (List.range 21).map (fun k => 9 * k) := by
    decide
  refine ⟨by decide, by decide, ?_, rfl, by decide, by decide,
    fun _ _ => rfl, by decide⟩
  rw [hangles]
  have hp : ((List.range 21).map (fun k => 9 * k)).Pairwise (· < ·) := by
    refine List.Pairwise.map _ ?_ (List.pairwise_lt_range 21)
    intro a b hab
    omega
  exact hp.chain'

/-- C9: drawing the zero-area default rectangle `{'x':0,'y':0,'length':0,
'height':0}` changes no pixel, so rendering a frame with both auxiliary
rectangles at their `make_scene` defaults yields exactly the image rendered
with no auxiliary rectangle drawn at all. -/
theorem C9_zero_rect_identity (draw_motion : Image → Image) (fineness : ℕ)
    (color : Color) (img : Image) :
    (draw_rect default_rect color img = img)
    ∧ (∀ p, draw_rect default_rect color img p = img p)
    ∧ (make_frame_image draw_motion fineness default_rect default_rect
        = make_frame_image_no_aux draw_motion fineness) := by
  have hz : ∀ (c : Color) (im : Image), draw_rect default_rect c im = im := by
    intro c im
    funext p
    unfold draw_rect
    rw [if_neg]
    intro hp
    obtain ⟨h1, h2, _, _⟩ := hp
    simp only [default_rect] at h1 h2
    norm_num at h1 h2
    linarith
  refine ⟨hz color img, fun p => by rw [hz color img], ?_⟩
  unfold make_frame_image make_frame_image_no_aux
  rw [hz, hz]

theorem make_scene_output_eq_play_iff (filepath name : List Char) :
    make_scene_output filepath name = play_scene_path filepath
      ↔ name = ("scene".data) := by
  unfold make_scene_output play_scene_path
  have hsplit : ("\\bw_frames\\scene.mp4".data : List Char)
      = ("\\bw_frames\\".data) ++ (("scene".data) ++ (".mp4".data)) := by decide
  rw [hsplit, List.append_assoc]
  constructor
  · intro h
    have h1 := List.append_cancel_left h
    have h2 := List.append_cancel_left h1
    exact List.append_cancel_right h2
  · intro h
    rw [h]

theorem high_scene_name_ne (n : ℕ) : high_scene_name n ≠ ("scene".data) := by
  intro h
  have hh := congrArg List.head? h
  simp [high_scene_name] at hh

theorem low_scene_name_ne (n : ℕ) : low_scene_name n ≠ ("scene".data) := by
  intro h
  have hh := congrArg List.head? h
  simp [low_scene_name] at hh

theorem medium_scene_name_ne (n : ℕ) : medium_scene_name n ≠ ("scene".data) := by
  intro h
  have hh := congrArg List.head? h
  simp [medium_scene_name] at hh

/-- C10: `play_scene` takes no file argument and hardcodes
`bw_frames\scene.mp4`, and `pscc` always plays through it; hence a scene
assembled under any name other than `scene` — in particular the final
`high_N%`, `low_N%`, `medium_N%` outputs — is never the file that is played
and sampled. -/
theorem C10_play_scene_fixed_file (filepath name : List Char) :
    (pscc_play_path filepath = play_scene_path filepath)
    ∧ (play_scene_path filepath
        = filepath ++ ("\\bw_frames\\scene.mp4".data))
    ∧ (name ≠ ("scene".data) →
        make_scene_output filepath name ≠ pscc_play_path filepath)
    ∧ (∀ n : ℕ,
        make_scene_output filepath (high_scene_name n) ≠ pscc_play_path filepath)
    ∧ (∀ n : ℕ,
        make_scene_output filepath (low_scene_name n) ≠ pscc_play_path filepath)
    ∧ (∀ n : ℕ,
        make_scene_output filepath (medium_scene_name n) ≠ pscc_play_path filepath) := by
  have hkey : ∀ nm : List Char, nm ≠ ("scene".data) →
      make_scene_output filepath nm ≠ pscc_play_path filepath := by
    intro nm hnm h
    exact hnm ((make_scene_output_eq_play_iff filepath nm).mp h)
  refine ⟨rfl, rfl, hkey name, ?_, ?_, ?_⟩
  · intro n; exact hkey _ (high_scene_name_ne n)
  · intro n; exact hkey _ (low_scene_name_ne n)
  · intro n; exact hkey _ (medium_scene_name_ne n)

/-- Witness for C10: the scene assembled as `high_5%` is not the file `pscc`
plays. -/
theorem C10_witness :
    make_scene_output ("D:".data) (high_scene_name 5)
      ≠ pscc_play_path ("D:".data) :=
  (C10_play_scene_fixed_file ("D:".data) ("x".data)).2.2.2.1 5

end Bandwidth
